import Mathlib

/-
Verification development for the AI-News backend bootstrap
(src/backend/index.ts, src/backend/static.ts, src/backend/vite.ts).

The embedding is shallow: pure fragments of the TypeScript source become
Lean functions; the lazy-initialization coordinator of the vite.ts variant
(initializeApp, lines 245-335) becomes a small-step transition system over
an explicit process state, with interleaving points exactly at the await
boundaries of the source.
-/

/- ===== JSON values (bodies passed to res.json) and JSON.stringify ===== -/

inductive Json where
  | jNull : Json
  | jBool : Bool → Json
  | jNum : Int → Json
  | jStr : String → Json
  | jObj : List (String × Json) → Json

/-- Escaping performed by JSON.stringify on string content (quote and
backslash; control-character escapes do not occur in this codebase's
payloads and are elided). -/
def jsonEscape (s : String) : String :=
  s.data.foldl (fun acc c =>
    if c = '"' then acc ++ "\\\""
    else if c = '\\' then acc ++ "\\\\"
    else acc.push c) ""

mutual

/-- Compact serialization, as produced by JSON.stringify (no whitespace). -/
def Json.stringify : Json → String
  | Json.jNull => "null"
  | Json.jBool true => "true"
  | Json.jBool false => "false"
  | Json.jNum n => toString n
  | Json.jStr s => "\"" ++ jsonEscape s ++ "\""
  | Json.jObj fields => "\x7b" ++ Json.stringifyFields fields ++ "\x7d"

def Json.stringifyFields : List (String × Json) → String
  | [] => ""
  | [(k, v)] => "\"" ++ jsonEscape k ++ "\":" ++ Json.stringify v
  | (k, v) :: rest =>
      "\"" ++ jsonEscape k ++ "\":" ++ Json.stringify v ++ "," ++ Json.stringifyFields rest

end

/- ===== Runtime configuration (process.env reads in index.ts) ===== -/

/-- The environment variables the bootstrap reads. `none` models an unset
variable. -/
structure Env where
  nodeEnv : Option String
  vercel : Option String
  skipVite : Option String
  runStandalone : Option String
  port : Option String
deriving DecidableEq

/-- process.env.NODE_ENV === "production" -/
def isProduction (e : Env) : Bool := e.nodeEnv == some "production"

/-- process.env.VERCEL === "1" -/
def isVercel (e : Env) : Bool := e.vercel == some "1"

/-- process.env.SKIP_VITE === "true" -/
def skipViteFlag (e : Env) : Bool := e.skipVite == some "true"

/-- process.env.RUN_STANDALONE === "true" -/
def runStandaloneFlag (e : Env) : Bool := e.runStandalone == some "true"

/-- process.env.PORT || "5000" : the empty string is falsy in JS, so it
also falls back to the default. -/
def portString (e : Env) : String :=
  match e.port with
  | some s => if s == "" then "5000" else s
  | none => "5000"

/-- parseInt(s, 10): skip leading whitespace, optional sign, then a
non-empty run of decimal digits; `none` models NaN. -/
def parseIntB10 (s : String) : Option Int :=
  let cs := s.data.dropWhile (fun c => c = ' ' ∨ c = '\t' ∨ c = '\n' ∨ c = '\r')
  let signAndRest : Int × List Char :=
    match cs with
    | '-' :: r => (-1, r)
    | '+' :: r => (1, r)
    | r => (1, r)
  let ds := signAndRest.2.takeWhile Char.isDigit
  if ds.isEmpty then none
  else some (signAndRest.1 * (ds.foldl (fun acc c => acc * 10 + (c.toNat - '0'.toNat)) 0 : Nat))

/- ===== Middleware chain built by initializeAppAsync (index.ts 74-158) ===== -/

/-- The handlers appended to the Application Handle by the orchestrator
and its collaborators. `routeLayer` stands for everything registerRoutes
attaches (an external collaborator). -/
inductive Middleware where
  | routeLayer : Middleware
  | staticFiles : Middleware
  | staticIndexFallback : Middleware
  | viteMiddlewares : Middleware
  | viteHtmlCatchAll : Middleware
  | placeholder : Middleware
  | errorHandler : Middleware
deriving DecidableEq

/-- serveStatic (static.ts 19-33): throws before mounting anything when the
build directory is missing; otherwise appends the static file handler and
the index.html fall-through catch-all. `distExists` stands for
fs.existsSync(path.resolve(dirname, "public")). -/
def serveStatic (distExists : Bool) (chain : List Middleware) : Except String (List Middleware) :=
  if !distExists then
    Except.error "Could not find the build directory, make sure to build the client first"
  else
    Except.ok (chain ++ [Middleware.staticFiles, Middleware.staticIndexFallback])

/-- Process-level facts the orchestrator branches on beyond the raw
environment: whether the prebuilt asset directory exists, and whether the
setupVite collaborator resolves (it mounts nothing when it rejects, since
every rejection point in setupVite precedes its app.use calls). -/
structure SysConfig where
  env : Env
  distExists : Bool
  viteOk : Bool
deriving DecidableEq

/-- Outcome of the wiring performed by initializeAppAsync (index.ts 74-158)
after registerRoutes has resolved: the middleware appended to the
Application Handle, whether serveStatic was invoked, and whether the
orchestrator's catch around the static block fired. -/
structure InitResult where
  chain : List Middleware
  serveStaticCalled : Bool
  staticErrorCaught : Bool
deriving DecidableEq

/-- initializeAppAsync, index.ts lines 94-152 (the part after the dynamic
route import, assuming registerRoutes resolves): production mounts static
serving only when the directory exists; development attempts the Vite dev
middleware unless skipped, swallowing its failure; the placeholder
catch-all is appended exactly when SKIP_VITE === "true" or production; the
error handler is appended last. -/
def initializeAppAsync (cfg : SysConfig) : InitResult :=
  let base := [Middleware.routeLayer]
  let afterContent : InitResult :=
    if isProduction cfg.env then
      if cfg.distExists then
        match serveStatic cfg.distExists base with
        | Except.ok c => ⟨c, true, false⟩
        | Except.error _ => ⟨base, true, true⟩
      else ⟨base, false, false⟩
    else if !(skipViteFlag cfg.env) then
      if cfg.viteOk then ⟨base ++ [Middleware.viteMiddlewares, Middleware.viteHtmlCatchAll], false, false⟩
      else ⟨base, false, false⟩
    else ⟨base, false, false⟩
  let afterFallback :=
    if skipViteFlag cfg.env || isProduction cfg.env then
      afterContent.chain ++ [Middleware.placeholder]
    else afterContent.chain
  ⟨afterFallback ++ [Middleware.errorHandler], afterContent.serveStaticCalled,
    afterContent.staticErrorCaught⟩

/-- A middleware is a catch-all when it terminates every request reaching
it (never calls next on the success path). -/
def Middleware.isCatchAll : Middleware → Bool
  | Middleware.staticIndexFallback => true
  | Middleware.viteHtmlCatchAll => true
  | Middleware.placeholder => true
  | _ => false

/- ===== Request dispatch through the mounted chain ===== -/

structure Req where
  method : String
  path : String
deriving DecidableEq

structure HttpResp where
  status : Nat
  contentType : Option String
  body : String
deriving DecidableEq

/-- Behavior of the external collaborators during dispatch: the routes
registered by registerRoutes, the express.static file lookup, and the
Vite transform middlewares (each answers a request or passes it on). -/
structure World where
  routed : Req → Option HttpResp
  assets : Req → Option HttpResp
  viteMw : Req → Option HttpResp
  indexHtml : String
  vitePage : Req → String

/-- The HTML page sent by the fallback catch-all (index.ts 139-143). -/
def placeholderHtml : String :=
  "<!doctype html><html><head><meta charset=\"utf-8\"><title>Backend API</title></head><body><h1>Backend API Running</h1></body></html>"

/-- What each mounted middleware does to a request on the fault-free path:
answer it or pass it to the next one. The error handler has no effect on a
fault-free dispatch (express skips 4-ary middleware unless next(err) was
called). -/
def runMiddleware (w : World) (m : Middleware) (req : Req) : Option HttpResp :=
  match m with
  | Middleware.routeLayer => w.routed req
  | Middleware.staticFiles => w.assets req
  | Middleware.staticIndexFallback => some ⟨200, some "text/html", w.indexHtml⟩
  | Middleware.viteMiddlewares => w.viteMw req
  | Middleware.viteHtmlCatchAll => some ⟨200, some "text/html", w.vitePage req⟩
  | Middleware.placeholder => some ⟨200, some "text/html", placeholderHtml⟩
  | Middleware.errorHandler => none

/-- Express dispatch order: first mounted middleware that answers wins. -/
def dispatchChain (w : World) : List Middleware → Req → Option HttpResp
  | [], _ => none
  | m :: rest, req =>
    match runMiddleware w m req with
    | some r => some r
    | none => dispatchChain w rest req

/- ===== Terminal error handler (index.ts 147-152) ===== -/

/-- The fault object reaching the error middleware: possibly-absent status,
statusCode and message fields. -/
structure ErrObj where
  status : Option Nat
  statusCode : Option Nat
  message : Option String
deriving DecidableEq

/-- JS truthiness on an optional number: undefined and 0 are falsy. -/
def jsTruthyNum : Option Nat → Option Nat
  | some n => if n = 0 then none else some n
  | none => none

/-- JS truthiness on an optional string: undefined and "" are falsy. -/
def jsTruthyStr : Option String → Option String
  | some s => if s = "" then none else some s
  | none => none

/-- The error middleware's response: status = err?.status || err?.statusCode
|| 500 (JS truthy-or), body = one-field JSON object with err?.message ||
"Internal Server Error"; the full fault goes to console.error only. -/
def errorHandlerRespond (err : ErrObj) : Nat × Json :=
  let status :=
    match jsTruthyNum err.status with
    | some n => n
    | none =>
      match jsTruthyNum err.statusCode with
      | some m => m
      | none => 500
  let message :=
    match jsTruthyStr err.message with
    | some s => s
    | none => "Internal Server Error"
  (status, Json.jObj [("message", Json.jStr message)])

/- ===== Response observer middleware (index.ts 164-188) ===== -/

/-- String.prototype.startsWith, via the underlying character lists (the
library's String.startsWith is equivalent but does not reduce in the
kernel). -/
def strStartsWith (s p : String) : Bool := p.data.isPrefixOf s.data

/-- The res.json wrapper installed by the observer: records the body and
forwards the identical body and argument list to the original res.json,
returning its result unchanged. -/
def wrappedResJson (originalResJson : Json → List Json → HttpResp)
    (bodyJson : Json) (args : List Json) : Option Json × HttpResp :=
  (some bodyJson, originalResJson bodyJson args)

/-- The finish handler: with the captured request start time and the finish
time, emits the log messages produced for this request (the strings handed
to log). Only API-prefixed paths produce a line; the captured JSON body is
appended to it when present. -/
def observeRequest (method routePath : String) (statusCode : Nat)
    (captured : Option Json) (startMs finishMs : Int) : List String :=
  let duration := finishMs - startMs
  if strStartsWith routePath "/api" then
    let base := method ++ " " ++ routePath ++ " " ++ toString statusCode ++ " in " ++
      toString duration ++ "ms"
    match captured with
    | some b => [base ++ " :: " ++ Json.stringify b]
    | none => [base]
  else []

/- ===== Transport selection (index.ts 190-209) ===== -/

/-- Observable module-level effects of the transport tail of index.ts:
binding a listener, and exporting the serverless adapter (a pure wrapping
of the Application Handle, producing no socket). -/
inductive Effect where
  | listen : Option Int → String → Effect
  | exportHandler : Effect
deriving DecidableEq

/-- index.ts lines 190-209: listen iff RUN_STANDALONE === "true" or
VERCEL !== "1", on parseInt(PORT || "5000") and host "0.0.0.0"; the
serverless adapter is exported unconditionally afterwards. -/
def moduleTail (e : Env) : List Effect :=
  (if runStandaloneFlag e || !(isVercel e) then
    [Effect.listen (parseIntB10 (portString e)) "0.0.0.0"]
  else []) ++ [Effect.exportHandler]

/- ===== Lazy-initialization coordinator (vite.ts 245-345 variant) =====

The lazy variant keeps two module-level cells:
  let initializationPromise: Promise<void> | null = null;
  let routesRegistered = false;
initializeApp() synchronously checks routesRegistered, then
initializationPromise, and otherwise assigns the promise of an async IIFE
whose body suspends at its first await (the dynamic route import) before
registerRoutes runs. The scheduling model is single-threaded and
cooperative, so that check-then-assign block is atomic; interleaving with
other requests can happen only at the await boundaries, which the step
relation below makes explicit. -/

inductive PromiseState where
  | pending : PromiseState
  | resolved : PromiseState
  | rejected : PromiseState
deriving DecidableEq

/-- Program counter of the wiring task (the async IIFE): suspended at the
route import, about to call registerRoutes, registered and finishing the
remaining mounting, or settled. -/
inductive WiringPC where
  | beforeImport : WiringPC
  | beforeRegister : WiringPC
  | beforeFinish : WiringPC
  | settled : WiringPC
deriving DecidableEq

/-- A request currently inside the lazy-init middleware (vite.ts 338-345):
about to call initializeApp, awaiting the shared promise, proceeding to
next() after it resolved, or answering 500 after it rejected. -/
inductive CallerState where
  | start : CallerState
  | waiting : CallerState
  | doneOk : CallerState
  | doneErr : CallerState
deriving DecidableEq

/-- Process state of the lazy variant. registerCalls counts invocations of
the registerRoutes collaborator and promiseCreations counts assignments to
initializationPromise; both are ghost counters, not part of the source
state, used to express the exactly-once properties. -/
structure LazySys where
  routesRegistered : Bool
  initializationPromise : Option PromiseState
  wiring : Option WiringPC
  registerCalls : Nat
  promiseCreations : Nat
  callers : List CallerState
deriving DecidableEq

/-- Initial state: both cells at their module-initializer values, n
requests about to enter the lazy-init middleware. -/
def lazyInit (n : Nat) : LazySys :=
  ⟨false, none, none, 0, 0, List.replicate n CallerState.start⟩

/-- One cooperative step of the process. `fails` fixes whether the
registerRoutes collaborator rejects (the only rejection the IIFE does not
swallow: static and vite failures are caught locally, so the catch at
vite.ts 328-331 rethrows exactly the route-registration fault). -/
inductive LazyStep (fails : Bool) : LazySys → LazySys → Prop where
  | callerFast (s : LazySys) (i : Nat)
      (hc : s.callers[i]? = some CallerState.start) (hr : s.routesRegistered = true) :
      LazyStep fails s { s with callers := s.callers.set i CallerState.doneOk }
  | callerAwait (s : LazySys) (i : Nat) (p : PromiseState)
      (hc : s.callers[i]? = some CallerState.start) (hr : s.routesRegistered = false)
      (hp : s.initializationPromise = some p) :
      LazyStep fails s { s with callers := s.callers.set i CallerState.waiting }
  | callerCreate (s : LazySys) (i : Nat)
      (hc : s.callers[i]? = some CallerState.start) (hr : s.routesRegistered = false)
      (hp : s.initializationPromise = none) :
      LazyStep fails s { s with
        initializationPromise := some PromiseState.pending,
        wiring := some WiringPC.beforeImport,
        promiseCreations := s.promiseCreations + 1,
        callers := s.callers.set i CallerState.waiting }
  | wireImport (s : LazySys)
      (hw : s.wiring = some WiringPC.beforeImport) :
      LazyStep fails s { s with wiring := some WiringPC.beforeRegister }
  | wireRegisterOk (s : LazySys) (hf : fails = false)
      (hw : s.wiring = some WiringPC.beforeRegister) :
      LazyStep fails s { s with
        wiring := some WiringPC.beforeFinish,
        registerCalls := s.registerCalls + 1 }
  | wireRegisterFail (s : LazySys) (hf : fails = true)
      (hw : s.wiring = some WiringPC.beforeRegister) :
      LazyStep fails s { s with
        wiring := some WiringPC.settled,
        registerCalls := s.registerCalls + 1,
        initializationPromise := some PromiseState.rejected }
  | wireFinish (s : LazySys)
      (hw : s.wiring = some WiringPC.beforeFinish) :
      LazyStep fails s { s with
        wiring := some WiringPC.settled,
        routesRegistered := true,
        initializationPromise := some PromiseState.resolved }
  | waiterResolve (s : LazySys) (i : Nat)
      (hc : s.callers[i]? = some CallerState.waiting)
      (hp : s.initializationPromise = some PromiseState.resolved) :
      LazyStep fails s { s with callers := s.callers.set i CallerState.doneOk }
  | waiterReject (s : LazySys) (i : Nat)
      (hc : s.callers[i]? = some CallerState.waiting)
      (hp : s.initializationPromise = some PromiseState.rejected) :
      LazyStep fails s { s with callers := s.callers.set i CallerState.doneErr }

def LazyReachable (fails : Bool) (n : Nat) (s : LazySys) : Prop :=
  Relation.ReflTransGen (LazyStep fails) (lazyInit n) s

/-- The response the lazy-init middleware itself produces: requests whose
await of the initialization promise rejects are answered with 500 and the
fixed JSON error body (vite.ts 342-344); all other requests proceed down
the chain (no response from this middleware). -/
def lazyInitResponse : CallerState → Option (Nat × Json)
  | CallerState.doneErr => some (500, Json.jObj [("error", Json.jStr "Failed to initialize app")])
  | _ => none

/- ===== Invariant of the lazy coordinator ===== -/

/-- What each caller phase implies about the shared promise cell. -/
@[reducible] def callerOk (p : Option PromiseState) (c : CallerState) : Prop :=
  match c with
  | CallerState.start => True
  | CallerState.waiting => p ≠ none
  | CallerState.doneOk => p = some PromiseState.resolved
  | CallerState.doneErr => p = some PromiseState.rejected

/-- Relation between the wiring task's program counter and the shared
cells and ghost counters. -/
@[reducible] def wiringCaseInv (w : Option WiringPC) (p : Option PromiseState)
    (rc pc : Nat) (rr : Bool) : Prop :=
  match w with
  | none => p = none ∧ rc = 0 ∧ pc = 0 ∧ rr = false
  | some WiringPC.beforeImport => p = some PromiseState.pending ∧ rc = 0 ∧ pc = 1 ∧ rr = false
  | some WiringPC.beforeRegister => p = some PromiseState.pending ∧ rc = 0 ∧ pc = 1 ∧ rr = false
  | some WiringPC.beforeFinish => p = some PromiseState.pending ∧ rc = 1 ∧ pc = 1 ∧ rr = false
  | some WiringPC.settled => rc = 1 ∧ pc = 1 ∧
      ((p = some PromiseState.resolved ∧ rr = true) ∨
       (p = some PromiseState.rejected ∧ rr = false))

@[reducible] def lazyInv (n : Nat) (s : LazySys) : Prop :=
  s.callers.length = n ∧
  (∀ c ∈ s.callers, callerOk s.initializationPromise c) ∧
  wiringCaseInv s.wiring s.initializationPromise s.registerCalls s.promiseCreations
    s.routesRegistered

/- ===== Helper lemmas about the invariant ===== -/

theorem wiringInv_counts {w : Option WiringPC} {p : Option PromiseState} {rc pc : Nat} {rr : Bool}
    (h : wiringCaseInv w p rc pc rr) : rc ≤ 1 ∧ pc ≤ 1 := by
  cases w with
  | none => simp only [wiringCaseInv] at h; omega
  | some x => cases x <;> simp only [wiringCaseInv] at h <;> omega

theorem wiringInv_rr_resolved {w : Option WiringPC} {p : Option PromiseState} {rc pc : Nat}
    {rr : Bool} (h : wiringCaseInv w p rc pc rr) (hr : rr = true) :
    p = some PromiseState.resolved ∧ rc = 1 := by
  subst hr
  cases w with
  | none => simp only [wiringCaseInv] at h; simp at h
  | some x => cases x with
    | settled =>
        rcases h with ⟨h1, h2, ⟨hp, _⟩ | ⟨_, hrr⟩⟩
        · exact ⟨hp, h1⟩
        · simp at hrr
    | _ => simp only [wiringCaseInv] at h; simp at h

theorem wiringInv_none_promise {w : Option WiringPC} {p : Option PromiseState} {rc pc : Nat}
    {rr : Bool} (h : wiringCaseInv w p rc pc rr) (hp : p = none) :
    w = none ∧ rc = 0 ∧ pc = 0 ∧ rr = false := by
  subst hp
  cases w with
  | none => exact ⟨rfl, h.2.1, h.2.2.1, h.2.2.2⟩
  | some x => cases x with
    | settled => rcases h with ⟨-, -, ⟨hq, -⟩ | ⟨hq, -⟩⟩ <;> simp at hq
    | _ => exact absurd h.1 (by simp)

theorem wiringInv_settled_promise {w : Option WiringPC} {p : Option PromiseState} {rc pc : Nat}
    {rr : Bool} (h : wiringCaseInv w p rc pc rr)
    (hp : p = some PromiseState.resolved ∨ p = some PromiseState.rejected) :
    w = some WiringPC.settled ∧ rc = 1 ∧ pc = 1 := by
  cases w with
  | none => rcases hp with hp | hp <;> rw [h.1] at hp <;> simp at hp
  | some x => cases x with
    | settled => exact ⟨rfl, h.1, h.2.1⟩
    | _ => rcases hp with hp | hp <;> rw [h.1] at hp <;> simp at hp

theorem wiringInv_rejected_facts {w : Option WiringPC} {p : Option PromiseState} {rc pc : Nat}
    {rr : Bool} (h : wiringCaseInv w p rc pc rr) (hp : p = some PromiseState.rejected) :
    w = some WiringPC.settled ∧ rc = 1 ∧ pc = 1 ∧ rr = false := by
  obtain ⟨hw, hrc, hpc⟩ := wiringInv_settled_promise h (Or.inr hp)
  subst hw
  rcases h with ⟨-, -, ⟨hq, -⟩ | ⟨-, hrr⟩⟩
  · rw [hp] at hq; simp at hq
  · exact ⟨rfl, hrc, hpc, hrr⟩

theorem callerOk_of_none {c : CallerState} (h : callerOk none c) : c = CallerState.start := by
  cases c <;> simp [callerOk] at h ⊢

theorem callerOk_of_pending {c : CallerState} (h : callerOk (some PromiseState.pending) c)
    {p' : Option PromiseState} (hp' : p' ≠ none) : callerOk p' c := by
  cases c with
  | start => trivial
  | waiting => exact hp'
  | doneOk => simp [callerOk] at h
  | doneErr => simp [callerOk] at h

/- ===== Invariant holds initially and is preserved ===== -/

theorem lazyInv_init (n : Nat) : lazyInv n (lazyInit n) := by
  refine ⟨by simp [lazyInit], ?_, by simp [lazyInit, wiringCaseInv]⟩
  intro c hc
  have hce : c = CallerState.start := List.eq_of_mem_replicate (by simpa [lazyInit] using hc)
  subst hce
  trivial

theorem lazyInv_step {fails : Bool} {n : Nat} {s s' : LazySys}
    (hinv : lazyInv n s) (hstep : LazyStep fails s s') : lazyInv n s' := by
  obtain ⟨hlen, hcall, hwir⟩ := hinv
  cases hstep with
  | callerFast i hc hr =>
      refine ⟨by simpa using hlen, ?_, hwir⟩
      intro c hcm
      rcases List.mem_or_eq_of_mem_set hcm with hm | hm
      · exact hcall c hm
      · subst hm
        exact (wiringInv_rr_resolved hwir hr).1
  | callerAwait i p hc hr hp =>
      refine ⟨by simpa using hlen, ?_, hwir⟩
      intro c hcm
      rcases List.mem_or_eq_of_mem_set hcm with hm | hm
      · exact hcall c hm
      · subst hm; show s.initializationPromise ≠ none; rw [hp]; simp
  | callerCreate i hc hr hp =>
      obtain ⟨hw0, hrc0, hpc0, hrr0⟩ := wiringInv_none_promise hwir hp
      refine ⟨by simpa using hlen, ?_, ?_⟩
      · intro c hcm
        rcases List.mem_or_eq_of_mem_set hcm with hm | hm
        · have hst : c = CallerState.start := callerOk_of_none (hp ▸ hcall c hm)
          subst hst; trivial
        · subst hm; show (some PromiseState.pending ≠ none); simp
      · refine ⟨rfl, hrc0, ?_, hrr0⟩
        show s.promiseCreations + 1 = 1
        omega
  | wireImport hw =>
      rw [hw] at hwir
      exact ⟨hlen, hcall, hwir⟩
  | wireRegisterOk hf hw =>
      rw [hw] at hwir
      refine ⟨hlen, hcall, hwir.1, ?_, hwir.2.2.1, hwir.2.2.2⟩
      show s.registerCalls + 1 = 1
      have := hwir.2.1
      omega
  | wireRegisterFail hf hw =>
      rw [hw] at hwir
      refine ⟨hlen, ?_, ?_⟩
      · intro c hcm
        exact callerOk_of_pending (hwir.1 ▸ hcall c hcm) (by simp)
      · refine ⟨?_, hwir.2.2.1, Or.inr ⟨rfl, hwir.2.2.2⟩⟩
        show s.registerCalls + 1 = 1
        have := hwir.2.1
        omega
  | wireFinish hw =>
      rw [hw] at hwir
      refine ⟨hlen, ?_, ?_⟩
      · intro c hcm
        exact callerOk_of_pending (hwir.1 ▸ hcall c hcm) (by simp)
      · exact ⟨hwir.2.1, hwir.2.2.1, Or.inl ⟨rfl, rfl⟩⟩
  | waiterResolve i hc hp =>
      refine ⟨by simpa using hlen, ?_, hwir⟩
      intro c hcm
      rcases List.mem_or_eq_of_mem_set hcm with hm | hm
      · exact hcall c hm
      · subst hm; exact hp
  | waiterReject i hc hp =>
      refine ⟨by simpa using hlen, ?_, hwir⟩
      intro c hcm
      rcases List.mem_or_eq_of_mem_set hcm with hm | hm
      · exact hcall c hm
      · subst hm; exact hp

theorem lazyInv_reachable {fails : Bool} {n : Nat} {s : LazySys}
    (h : LazyReachable fails n s) : lazyInv n s := by
  induction h with
  | refl => exact lazyInv_init n
  | tail hsteps hstep ih => exact lazyInv_step ih hstep

theorem lazyRejected_step {fails : Bool} {n : Nat} {s s' : LazySys}
    (hinv : lazyInv n s) (hrej : s.initializationPromise = some PromiseState.rejected)
    (hstep : LazyStep fails s s') :
    s'.initializationPromise = some PromiseState.rejected := by
  obtain ⟨hlen, hcall, hwir⟩ := hinv
  obtain ⟨hw, hrc, hpc, hrr⟩ := wiringInv_rejected_facts hwir hrej
  cases hstep with
  | callerFast i hc hr2 => exact hrej
  | callerAwait i p hc hr2 hp2 => exact hrej
  | callerCreate i hc hr2 hp2 => rw [hrej] at hp2; simp at hp2
  | wireImport hw2 => exact hrej
  | wireRegisterOk hf hw2 => exact hrej
  | wireRegisterFail hf hw2 => rfl
  | wireFinish hw2 => rw [hw] at hw2; simp at hw2
  | waiterResolve i hc hp2 => exact hrej
  | waiterReject i hc hp2 => exact hrej

theorem lazyRejected_star {fails : Bool} {n : Nat} {s s' : LazySys}
    (hinv : lazyInv n s) (hrej : s.initializationPromise = some PromiseState.rejected)
    (hsteps : Relation.ReflTransGen (LazyStep fails) s s') :
    lazyInv n s' ∧ s'.initializationPromise = some PromiseState.rejected := by
  induction hsteps with
  | refl => exact ⟨hinv, hrej⟩
  | tail hst hstep ih => exact ⟨lazyInv_step ih.1 hstep, lazyRejected_step ih.1 ih.2 hstep⟩

/-- C1: across every cooperative interleaving of N ≥ 1 requests entering the
lazy-init middleware, initializeApp (vite.ts 245-335) invokes the
route-registration collaborator at most once and assigns
initializationPromise at most once (all later arrivals share that one
promise); once routesRegistered is set the promise is resolved and
registration has happened exactly once, so a later call is a pure no-op;
and when every caller has finished, registration happened exactly once. -/
theorem initializeApp_registers_once (fails : Bool) (n : Nat) (s : LazySys)
    (h : LazyReachable fails n s) :
    s.registerCalls ≤ 1 ∧ s.promiseCreations ≤ 1 ∧
    (s.routesRegistered = true →
      s.initializationPromise = some PromiseState.resolved ∧ s.registerCalls = 1) ∧
    ((∀ c ∈ s.callers, c = CallerState.doneOk ∨ c = CallerState.doneErr) → 0 < n →
      s.registerCalls = 1 ∧ s.promiseCreations = 1) := by
  obtain ⟨hlen, hcall, hwir⟩ := lazyInv_reachable h
  obtain ⟨hrc, hpc⟩ := wiringInv_counts hwir
  refine ⟨hrc, hpc, ?_, ?_⟩
  · intro hr
    exact wiringInv_rr_resolved hwir hr
  · intro hdone hn
    have hpos : 0 < s.callers.length := by rw [hlen]; exact hn
    have hne : s.callers ≠ [] := List.ne_nil_of_length_pos hpos
    obtain ⟨c, hcm⟩ := List.exists_mem_of_ne_nil s.callers hne
    have hok := hcall c hcm
    rcases hdone c hcm with hd | hd
    · subst hd
      exact (wiringInv_settled_promise hwir (Or.inl hok)).2
    · subst hd
      exact (wiringInv_settled_promise hwir (Or.inr hok)).2

theorem initializeApp_registers_once_witness :
    (⟨true, some PromiseState.resolved, some WiringPC.settled, 1, 1,
      [CallerState.doneOk]⟩ : LazySys).registerCalls = 1 ∧
    (⟨true, some PromiseState.resolved, some WiringPC.settled, 1, 1,
      [CallerState.doneOk]⟩ : LazySys).promiseCreations = 1 := by
  have h1 : LazyStep false (lazyInit 1)
      (⟨false, some PromiseState.pending, some WiringPC.beforeImport, 0, 1,
        [CallerState.waiting]⟩ : LazySys) :=
    LazyStep.callerCreate (lazyInit 1) 0 rfl rfl rfl
  have h2 : LazyStep false
      (⟨false, some PromiseState.pending, some WiringPC.beforeImport, 0, 1,
        [CallerState.waiting]⟩ : LazySys)
      (⟨false, some PromiseState.pending, some WiringPC.beforeRegister, 0, 1,
        [CallerState.waiting]⟩ : LazySys) :=
    LazyStep.wireImport _ rfl
  have h3 : LazyStep false
      (⟨false, some PromiseState.pending, some WiringPC.beforeRegister, 0, 1,
        [CallerState.waiting]⟩ : LazySys)
      (⟨false, some PromiseState.pending, some WiringPC.beforeFinish, 1, 1,
        [CallerState.waiting]⟩ : LazySys) :=
    LazyStep.wireRegisterOk _ rfl rfl
  have h4 : LazyStep false
      (⟨false, some PromiseState.pending, some WiringPC.beforeFinish, 1, 1,
        [CallerState.waiting]⟩ : LazySys)
      (⟨true, some PromiseState.resolved, some WiringPC.settled, 1, 1,
        [CallerState.waiting]⟩ : LazySys) :=
    LazyStep.wireFinish _ rfl
  have h5 : LazyStep false
      (⟨true, some PromiseState.resolved, some WiringPC.settled, 1, 1,
        [CallerState.waiting]⟩ : LazySys)
      (⟨true, some PromiseState.resolved, some WiringPC.settled, 1, 1,
        [CallerState.doneOk]⟩ : LazySys) :=
    LazyStep.waiterResolve _ 0 rfl rfl
  have hreach : LazyReachable false 1
      (⟨true, some PromiseState.resolved, some WiringPC.settled, 1, 1,
        [CallerState.doneOk]⟩ : LazySys) :=
    Relation.ReflTransGen.tail
      (Relation.ReflTransGen.tail
        (Relation.ReflTransGen.tail
          (Relation.ReflTransGen.tail (Relation.ReflTransGen.tail Relation.ReflTransGen.refl h1)
            h2) h3) h4) h5
  exact (initializeApp_registers_once false 1 _ hreach).2.2.2 (by decide) (by decide)

/-- C10: once the wiring sequence has failed (the initialization promise is
rejected), every further interleaving keeps the promise stored and
rejected, routesRegistered stays false, the wiring is never re-executed
(the registration count stays at its single invocation and no second
promise is ever created), no caller can complete successfully, and a
request finishing in the failed state is answered by the lazy-init
middleware with 500 and body error "Failed to initialize app". -/
theorem initializeApp_failure_sticky (fails : Bool) (n : Nat) (s s' : LazySys)
    (hreach : LazyReachable fails n s)
    (hrej : s.initializationPromise = some PromiseState.rejected)
    (hsteps : Relation.ReflTransGen (LazyStep fails) s s') :
    s'.initializationPromise = some PromiseState.rejected ∧
    s'.routesRegistered = false ∧
    s'.registerCalls = 1 ∧
    s'.promiseCreations = 1 ∧
    (∀ c ∈ s'.callers, c ≠ CallerState.doneOk) ∧
    lazyInitResponse CallerState.doneErr =
      some (500, Json.jObj [("error", Json.jStr "Failed to initialize app")]) := by
  obtain ⟨hinv2, hrej2⟩ := lazyRejected_star (lazyInv_reachable hreach) hrej hsteps
  obtain ⟨hlen, hcall, hwir⟩ := hinv2
  obtain ⟨hw, hrc, hpc, hrr⟩ := wiringInv_rejected_facts hwir hrej2
  refine ⟨hrej2, hrr, hrc, hpc, ?_, rfl⟩
  intro c hcm hcd
  subst hcd
  have hok := hcall _ hcm
  rw [hrej2] at hok
  simp [callerOk] at hok

theorem initializeApp_failure_sticky_witness :
    (⟨false, some PromiseState.rejected, some WiringPC.settled, 1, 1,
      [CallerState.doneErr]⟩ : LazySys).initializationPromise = some PromiseState.rejected ∧
    (⟨false, some PromiseState.rejected, some WiringPC.settled, 1, 1,
      [CallerState.doneErr]⟩ : LazySys).routesRegistered = false := by
  have h1 : LazyStep true (lazyInit 1)
      (⟨false, some PromiseState.pending, some WiringPC.beforeImport, 0, 1,
        [CallerState.waiting]⟩ : LazySys) :=
    LazyStep.callerCreate (lazyInit 1) 0 rfl rfl rfl
  have h2 : LazyStep true
      (⟨false, some PromiseState.pending, some WiringPC.beforeImport, 0, 1,
        [CallerState.waiting]⟩ : LazySys)
      (⟨false, some PromiseState.pending, some WiringPC.beforeRegister, 0, 1,
        [CallerState.waiting]⟩ : LazySys) :=
    LazyStep.wireImport _ rfl
  have h3 : LazyStep true
      (⟨false, some PromiseState.pending, some WiringPC.beforeRegister, 0, 1,
        [CallerState.waiting]⟩ : LazySys)
      (⟨false, some PromiseState.rejected, some WiringPC.settled, 1, 1,
        [CallerState.waiting]⟩ : LazySys) :=
    LazyStep.wireRegisterFail _ rfl rfl
  have hreach : LazyReachable true 1
      (⟨false, some PromiseState.rejected, some WiringPC.settled, 1, 1,
        [CallerState.waiting]⟩ : LazySys) :=
    Relation.ReflTransGen.tail
      (Relation.ReflTransGen.tail (Relation.ReflTransGen.tail Relation.ReflTransGen.refl h1) h2)
      h3
  have h4 : LazyStep true
      (⟨false, some PromiseState.rejected, some WiringPC.settled, 1, 1,
        [CallerState.waiting]⟩ : LazySys)
      (⟨false, some PromiseState.rejected, some WiringPC.settled, 1, 1,
        [CallerState.doneErr]⟩ : LazySys) :=
    LazyStep.waiterReject _ 0 rfl rfl
  have hmain := initializeApp_failure_sticky true 1 _ _ hreach rfl
    (Relation.ReflTransGen.single h4)
  exact ⟨hmain.1, hmain.2.1⟩

/-- C2 fails on the code: in production with the asset directory present,
both the static index fallback and the placeholder are mounted as
catch-alls (two); in development with the dev middleware neither skipped
nor mounting successfully, no catch-all is mounted at all (zero). -/
theorem catchall_count_cex :
    ((initializeAppAsync ⟨⟨some "production", none, none, none, none⟩, true, false⟩).chain.countP
      Middleware.isCatchAll) = 2 ∧
    ((initializeAppAsync ⟨⟨none, none, none, none, none⟩, false, false⟩).chain.countP
      Middleware.isCatchAll) = 0 :=
  ⟨by decide, by decide⟩

/-- C2 (amended): the catch-alls mounted after initialization are exactly
characterized per configuration: production with assets mounts the static
index fallback and then the (shadowed, unreachable) placeholder; production
without assets, or development with the dev middleware skipped, mounts only
the placeholder; development with the dev middleware mounting successfully
mounts only its HTML catch-all; development with the dev middleware failing
and not skipped mounts none. In particular at most one catch-all is ever
reachable, and exactly one is mounted except in the two deviating cases. -/
theorem catchall_mount_characterization (cfg : SysConfig) :
    (initializeAppAsync cfg).chain.filter Middleware.isCatchAll =
      (if isProduction cfg.env then
        (if cfg.distExists then [Middleware.staticIndexFallback, Middleware.placeholder]
         else [Middleware.placeholder])
       else if skipViteFlag cfg.env then [Middleware.placeholder]
       else if cfg.viteOk then [Middleware.viteHtmlCatchAll]
       else []) := by
  obtain ⟨env, de, vo⟩ := cfg
  cases de <;> cases vo <;> cases hp : isProduction env <;> cases hs : skipViteFlag env <;>
    simp [initializeAppAsync, serveStatic, hp, hs] <;> decide

/-- C3 fails on the code at a fault whose status field is present but zero:
the JS truthy-or err?.status || err?.statusCode || 500 skips it and the
response status is 500, not the present value 0. -/
theorem error_status_present_zero_cex :
    (⟨some 0, none, some "boom"⟩ : ErrObj).status = some 0 ∧
    (errorHandlerRespond ⟨some 0, none, some "boom"⟩).1 = 500 :=
  ⟨rfl, by decide⟩

/-- C3 (amended): the error middleware is attached last; the response
status is the fault's status field when present and nonzero, else its
statusCode field when present and nonzero, else 500; the body is always a
one-field JSON object of shape message : string (never the full fault). -/
theorem error_handler_spec (cfg : SysConfig) (err : ErrObj) :
    (initializeAppAsync cfg).chain.getLast? = some Middleware.errorHandler ∧
    (∀ n, err.status = some n → n ≠ 0 → (errorHandlerRespond err).1 = n) ∧
    (∀ m, (err.status = none ∨ err.status = some 0) → err.statusCode = some m → m ≠ 0 →
      (errorHandlerRespond err).1 = m) ∧
    ((err.status = none ∨ err.status = some 0) →
      (err.statusCode = none ∨ err.statusCode = some 0) → (errorHandlerRespond err).1 = 500) ∧
    (∃ s : String, (errorHandlerRespond err).2 = Json.jObj [("message", Json.jStr s)]) := by
  obtain ⟨st, sc, msg⟩ := err
  refine ⟨?_, ?_, ?_, ?_, ?_⟩
  · obtain ⟨env, de, vo⟩ := cfg
    cases de <;> cases vo <;> cases hp : isProduction env <;> cases hs : skipViteFlag env <;>
      simp [initializeAppAsync, serveStatic, hp, hs]
  · intro n hn hnz
    simp only at hn
    subst hn
    simp [errorHandlerRespond, jsTruthyNum, hnz]
  · intro m hst hsc hmz
    simp only at hsc
    subst hsc
    rcases hst with h | h <;> simp only at h <;> subst h <;>
      simp [errorHandlerRespond, jsTruthyNum, hmz]
  · intro hst hsc
    rcases hst with h | h <;> simp only at h <;> subst h <;>
      rcases hsc with h2 | h2 <;> simp only at h2 <;> subst h2 <;>
        simp [errorHandlerRespond, jsTruthyNum]
  · exact ⟨_, rfl⟩

theorem error_handler_spec_witness :
    (errorHandlerRespond ⟨some 404, none, none⟩).1 = 404 :=
  (error_handler_spec ⟨⟨none, none, none, none, none⟩, false, false⟩
    ⟨some 404, none, none⟩).2.1 404 rfl (by decide)

/-- C4: for GET /api/ping answered through res.json with status 200 and
body ok : true, the observer emits exactly one log line after the response
finishes, consisting of the method, the path, the status, the elapsed
milliseconds (≥ 0 since the finish time is not before the start time) and
the compact serialization of the captured JSON body; a non-API request
produces no log line at all, so in particular no line with a body field. -/
theorem observer_api_ping_log (t0 t1 : Int) (h : t0 ≤ t1) :
    observeRequest "GET" "/api/ping" 200 (some (Json.jObj [("ok", Json.jBool true)])) t0 t1 =
      ["GET" ++ " " ++ "/api/ping" ++ " " ++ toString 200 ++ " in " ++ toString (t1 - t0) ++
        "ms" ++ " :: " ++ Json.stringify (Json.jObj [("ok", Json.jBool true)])] ∧
    Json.stringify (Json.jObj [("ok", Json.jBool true)]) = "\x7b\"ok\":true\x7d" ∧
    0 ≤ t1 - t0 ∧
    (∀ method p status captured, strStartsWith p "/api" = false →
      observeRequest method p status captured t0 t1 = ([] : List String)) := by
  refine ⟨rfl, by decide, by omega, ?_⟩
  intro method p status captured hfalse
  simp [observeRequest, hfalse]

theorem observer_api_ping_log_witness :
    observeRequest "GET" "/api/ping" 200 (some (Json.jObj [("ok", Json.jBool true)])) 0 5 =
      ["GET /api/ping 200 in 5ms :: \x7b\"ok\":true\x7d"] :=
  ((observer_api_ping_log 0 5 (by decide)).1).trans (by decide)

/-- C7 fails on the code: a non-API request (GET /home) receives no
timing/status log line at all, since the finish handler logs only when the
path starts with /api. -/
theorem observer_nonapi_no_line_cex :
    observeRequest "GET" "/home" 200 none 0 5 = ([] : List String) := by decide

/-- C7 (amended): only requests whose path starts with the API prefix
receive the timing/status log line (exactly one); non-API requests receive
no observer log line; and the line carries the JSON body snapshot exactly
when one was captured for an API request. -/
theorem observer_only_api_logged (method p : String) (status : Nat)
    (captured : Option Json) (t0 t1 : Int) :
    (strStartsWith p "/api" = true →
      (observeRequest method p status captured t0 t1).length = 1) ∧
    (strStartsWith p "/api" = false →
      observeRequest method p status captured t0 t1 = ([] : List String)) := by
  constructor
  · intro h
    cases captured <;> simp [observeRequest, h]
  · intro h
    simp [observeRequest, h]

theorem observer_only_api_logged_witness :
    (observeRequest "GET" "/api/users" 200 none 0 5).length = 1 ∧
    observeRequest "GET" "/about" 200 none 0 7 = ([] : List String) :=
  ⟨(observer_only_api_logged "GET" "/api/users" 200 none 0 5).1 (by decide),
   (observer_only_api_logged "GET" "/about" 200 none 0 7).2 (by decide)⟩

/-- C8: the observer's res.json wrapper is an exact pass-through: it hands
the original res.json the identical body and argument list and returns its
result unchanged, additionally recording the body; so the response bytes
are those the original method produces, for every original method and
every call. -/
theorem res_json_wrapper_passthrough (f : Json → List Json → HttpResp) (b : Json)
    (args : List Json) :
    (wrappedResJson f b args).2 = f b args ∧ (wrappedResJson f b args).1 = some b :=
  ⟨rfl, rfl⟩

/-- C9: serveStatic throws (and mounts nothing) when the prebuilt asset
directory is missing, and otherwise returns normally after appending the
static file handler followed by the index.html fallback catch-all. -/
theorem serveStatic_contract (chain : List Middleware) :
    serveStatic false chain =
      Except.error "Could not find the build directory, make sure to build the client first" ∧
    serveStatic true chain =
      Except.ok (chain ++ [Middleware.staticFiles, Middleware.staticIndexFallback]) :=
  ⟨rfl, rfl⟩

/-- C5: in production with the prebuilt asset directory absent, the
orchestrator never invokes serveStatic (it checks existence first, so the
catch around the static block never fires and initialization completes),
and a GET of the non-API path / — not answered by any registered route —
is answered by the placeholder catch-all with status 200 and an HTML
content type. -/
theorem static_missing_fallback (cfg : SysConfig) (w : World)
    (hprod : isProduction cfg.env = true) (hdist : cfg.distExists = false)
    (hroot : w.routed ⟨"GET", "/"⟩ = none) :
    (initializeAppAsync cfg).serveStaticCalled = false ∧
    (initializeAppAsync cfg).staticErrorCaught = false ∧
    dispatchChain w (initializeAppAsync cfg).chain ⟨"GET", "/"⟩ =
      some ⟨200, some "text/html", placeholderHtml⟩ := by
  obtain ⟨env, de, vo⟩ := cfg
  simp only at hprod hdist
  subst hdist
  refine ⟨?_, ?_, ?_⟩ <;>
    simp [initializeAppAsync, hprod, dispatchChain, runMiddleware, hroot]

theorem static_missing_fallback_witness :
    dispatchChain ⟨fun _ => none, fun _ => none, fun _ => none, "", fun _ => ""⟩
      (initializeAppAsync ⟨⟨some "production", none, none, none, some "3000"⟩, false, true⟩).chain
      ⟨"GET", "/"⟩ = some ⟨200, some "text/html", placeholderHtml⟩ :=
  (static_missing_fallback ⟨⟨some "production", none, none, none, some "3000"⟩, false, true⟩
    ⟨fun _ => none, fun _ => none, fun _ => none, "", fun _ => ""⟩ (by decide) rfl rfl).2.2

/-- C6: with VERCEL=1 and the standalone override not set, the module tail
binds no socket and only exports the serverless adapter; with the override
set or the serverless flag not equal to 1 it binds a listener on the
parsed port (5000 when PORT is unset) and the wildcard host 0.0.0.0; the
adapter export is present in every configuration and contributes no
listening effect. -/
theorem transport_selection (e : Env) :
    (isVercel e = true → runStandaloneFlag e = false → moduleTail e = [Effect.exportHandler]) ∧
    (runStandaloneFlag e = true ∨ isVercel e = false →
      moduleTail e =
        [Effect.listen (parseIntB10 (portString e)) "0.0.0.0", Effect.exportHandler]) ∧
    (e.port = none → parseIntB10 (portString e) = some 5000) ∧
    Effect.exportHandler ∈ moduleTail e := by
  refine ⟨?_, ?_, ?_, ?_⟩
  · intro hv hr
    simp [moduleTail, hv, hr]
  · intro h
    rcases h with hr | hv
    · simp [moduleTail, hr]
    · simp [moduleTail, hv]
  · intro hp
    simp only [portString, hp]
    decide
  · cases hcond : (runStandaloneFlag e || !(isVercel e)) <;> simp [moduleTail, hcond]

theorem transport_selection_witness :
    moduleTail ⟨none, some "1", none, none, none⟩ = [Effect.exportHandler] ∧
    moduleTail ⟨none, none, none, none, none⟩ =
      [Effect.listen (some 5000) "0.0.0.0", Effect.exportHandler] := by
  constructor
  · exact (transport_selection ⟨none, some "1", none, none, none⟩).1 (by decide) (by decide)
  · have h := (transport_selection ⟨none, none, none, none, none⟩).2.1 (Or.inr (by decide))
    have hp := (transport_selection ⟨none, none, none, none, none⟩).2.2.1 rfl
    rw [h, hp]

theorem res_json_wrapper_passthrough_witness :
    (wrappedResJson (fun b _ => HttpResp.mk 200 (some "application/json") (Json.stringify b))
      (Json.jBool true) []).2 = HttpResp.mk 200 (some "application/json") "true" ∧
    (wrappedResJson (fun b _ => HttpResp.mk 200 (some "application/json") (Json.stringify b))
      (Json.jBool true) []).1 = some (Json.jBool true) := by
  have h := res_json_wrapper_passthrough
    (fun b _ => HttpResp.mk 200 (some "application/json") (Json.stringify b))
    (Json.jBool true) []
  exact ⟨h.1.trans (by decide), h.2⟩

theorem serveStatic_contract_witness :
    serveStatic false [] =
      Except.error "Could not find the build directory, make sure to build the client first" ∧
    serveStatic true [Middleware.routeLayer] =
      Except.ok [Middleware.routeLayer, Middleware.staticFiles,
        Middleware.staticIndexFallback] := by
  have h1 := (serveStatic_contract []).1
  have h2 := (serveStatic_contract [Middleware.routeLayer]).2
  exact ⟨h1, h2.trans rfl⟩
